import Mathlib

/-!
Verification development for the Discord outbound-delivery adapter:
a shallow embedding of the webhook transport (send.webhook.ts), the
delivery orchestrator with bot-API fallback, and the agent-identity
resolver, together with theorems about the behaviour of these functions.

String handling is modelled over `List Char` (`String.data`), with
`jsTrim`/`trimChars` playing the role of JavaScript's `String.trim` and
whitespace meaning `Char.isWhitespace` (the common ASCII cases of the
JS `\s` class).  Network calls are modelled by an oracle
`net : Nat → Except TransportErr WebhookSendResult` giving the response
to the n-th HTTP request issued by one send; each send returns the list
of requests it issued, in transmission order.
-/

/-- Characters of JS `\w` (word characters): ASCII letters, digits, underscore. -/
def isWordChar (c : Char) : Bool := c.isAlphanum || c == '_'

/-- Lower-case an ASCII letter, identity elsewhere (JS `toLowerCase` on `\w` text). -/
def asciiLower (c : Char) : Char := if c.isUpper then Char.ofNat (c.toNat + 32) else c

/-- Strip leading and trailing whitespace from a character list (JS `trim`). -/
def trimChars (l : List Char) : List Char :=
  ((l.dropWhile Char.isWhitespace).reverse.dropWhile Char.isWhitespace).reverse

/-- JS `String.prototype.trim`, over the `List Char` view of strings. -/
def jsTrim (s : String) : String := String.mk (trimChars s.data)

/-- Does the list start with the given pattern of characters? (JS `startsWith`.) -/
def startsWithChars (pat : List Char) : List Char → Bool
  | [] => pat = []
  | c :: cs =>
    match pat with
    | [] => true
    | p :: ps => c == p && startsWithChars ps cs

/-- Drop an exact expected pattern from the front of a list, or fail. -/
def dropExact (pat : List Char) : List Char → Option (List Char)
  | [] => if pat = [] then some [] else none
  | c :: cs =>
    match pat with
    | [] => some (c :: cs)
    | p :: ps => if c == p then dropExact ps cs else none

/-- JS `"…".split("\n")`: split a character list at newline characters. -/
def splitOnNl : List Char → List (List Char)
  | [] => [[]]
  | c :: cs =>
    if c = '\n' then [] :: splitOnNl cs
    else
      match splitOnNl cs with
      | [] => [[c]]
      | l :: ls => (c :: l) :: ls

/-! ## Webhook transport data model (send.webhook.ts) -/

/-- `ChunkMode` is an external union type; it is only passed through to the
external chunker, so it is modelled opaquely. -/
abbrev ChunkMode := String

/-- Translated from `WebhookIdentity` in send.webhook.ts. -/
structure WebhookIdentity where
  username : Option String := none
  avatarUrl : Option String := none
  deriving Repr, DecidableEq

/-- Translated from `WebhookSendOptions` in send.webhook.ts; `α` is the
(opaque) element type of the `embeds?: unknown[]` field. -/
structure WebhookSendOptions (α : Type) where
  webhookUrl : String
  identity : Option WebhookIdentity := none
  replyTo : Option String := none
  threadId : Option String := none
  maxLinesPerMessage : Option Nat := none
  chunkMode : Option ChunkMode := none
  embeds : Option (List α) := none
  deriving Repr, DecidableEq

/-- Translated from `WebhookSendResult` in send.webhook.ts. -/
structure WebhookSendResult where
  messageId : String
  channelId : String
  deriving Repr, DecidableEq

/-- A non-success HTTP response: status code and best-effort body text
(the payload of the `Discord webhook failed (status): body` errors). -/
structure TransportErr where
  status : Nat
  body : String
  deriving Repr, DecidableEq

/-- The errors a webhook send can throw: the empty-text validation error,
a transport error from a non-ok response, and the defensive
`empty chunk result` error. -/
inductive SendError where
  | validation (msg : String)
  | transport (err : TransportErr)
  | emptyResult
  deriving Repr, DecidableEq

/-- The result of the external `loadWebMedia` collaborator: bytes plus
optional filename and mime type. -/
structure WebMedia where
  buffer : List Nat
  fileName : Option String := none
  mimeType : Option String := none
  deriving Repr, DecidableEq

/-- The outgoing JSON post built by `postWebhookMessage`: target URL, the
`wait`/`thread_id` query parameters and the JSON body fields. -/
structure TextRequest (α : Type) where
  webhookUrl : String
  wait : Bool
  thread_id : Option String
  content : String
  username : Option String
  avatar_url : Option String
  embeds : Option (List α)
  deriving Repr, DecidableEq

/-- The outgoing multipart post built by `postWebhookMessageWithFile`:
query parameters, the `payload_json` fields (content omitted when falsy)
and the binary file part. -/
structure FileRequest (α : Type) where
  webhookUrl : String
  wait : Bool
  thread_id : Option String
  content : Option String
  username : Option String
  avatar_url : Option String
  embeds : Option (List α)
  fileFieldName : String
  fileName : String
  mimeType : String
  bytes : List Nat
  deriving Repr, DecidableEq

/-- One network request issued by the transport. -/
inductive Request (α : Type) where
  | text (req : TextRequest α)
  | file (req : FileRequest α)
  deriving Repr, DecidableEq

/-- The embeds field carried by a request's outgoing payload. -/
def Request.embedsOf {α : Type} : Request α → Option (List α)
  | .text r => r.embeds
  | .file r => r.embeds

/-- The content carried by a request's outgoing payload (`none` when the
field is omitted from a file post's metadata). -/
def Request.contentOf {α : Type} : Request α → Option String
  | .text r => some r.content
  | .file r => r.content

/-- Is this request a file (multipart) post? -/
def Request.isFile {α : Type} : Request α → Bool
  | .text _ => false
  | .file _ => true

/-- Arguments handed to the external `chunkDiscordTextWithMode` collaborator. -/
structure ChunkArgs where
  maxChars : Nat
  maxLines : Option Nat
  chunkMode : Option ChunkMode
  deriving Repr, DecidableEq

/-- The external chunking policy (`chunkDiscordTextWithMode`), supplied as
an oracle. -/
abbrev Chunker := String → ChunkArgs → List String

/-- The network oracle: the response to the n-th HTTP call of one send. -/
abbrev Net := Nat → Except TransportErr WebhookSendResult

/-- A network oracle on which every call succeeds. -/
def okNet (f : Nat → WebhookSendResult) : Net := fun n => .ok (f n)

/-- JS truthiness filter for an optional string field guarded by
`if (x) …`: an empty string counts as absent. -/
def optTruthy : Option String → Option String
  | some s => if s = "" then none else some s
  | none => none

/-- JS `if (opts.embeds?.length)` guard: an absent or empty embeds array
is not attached to the outgoing payload. -/
def nonemptyEmbeds {α : Type} : Option (List α) → Option (List α)
  | some es => if es.isEmpty then none else some es
  | none => none

/-- `DISCORD_TEXT_LIMIT` from send.webhook.ts. -/
def DISCORD_TEXT_LIMIT : Nat := 2000

/-- Translated from `postWebhookMessage` in send.webhook.ts: the request
it builds from `content` and `opts` (always `wait=true`; `thread_id`,
`username`, `avatar_url` only when truthy; `embeds` only when non-empty). -/
def buildBody {α : Type} (content : String) (opts : WebhookSendOptions α) : TextRequest α :=
  { webhookUrl := opts.webhookUrl
    wait := true
    thread_id := optTruthy opts.threadId
    content := content
    username := optTruthy (opts.identity.bind WebhookIdentity.username)
    avatar_url := optTruthy (opts.identity.bind WebhookIdentity.avatarUrl)
    embeds := nonemptyEmbeds opts.embeds }

/-- Translated from `postWebhookMessageWithFile` in send.webhook.ts: the
multipart request it builds (`content` omitted when falsy, filename
defaulting to `upload`, mime type to `application/octet-stream`). -/
def buildFileBody {α : Type} (content : String) (media : WebMedia)
    (opts : WebhookSendOptions α) : FileRequest α :=
  { webhookUrl := opts.webhookUrl
    wait := true
    thread_id := optTruthy opts.threadId
    content := if content = "" then none else some content
    username := optTruthy (opts.identity.bind WebhookIdentity.username)
    avatar_url := optTruthy (opts.identity.bind WebhookIdentity.avatarUrl)
    embeds := nonemptyEmbeds opts.embeds
    fileFieldName := "files[0]"
    fileName := media.fileName.getD ("upload")
    mimeType := media.mimeType.getD ("application/octet-stream")
    bytes := media.buffer }

/-- The chunk list used by `sendDiscordWebhookText`: the external chunker's
output, with the defensive `if (!chunks.length && text) chunks.push(text)`
fallback. -/
def effectiveChunks {α : Type} (chunker : Chunker) (text : String)
    (opts : WebhookSendOptions α) : List String :=
  let cs := chunker text
    { maxChars := DISCORD_TEXT_LIMIT
      maxLines := opts.maxLinesPerMessage
      chunkMode := opts.chunkMode }
  if cs = [] ∧ ¬ text = "" then [text] else cs

/-- The chunk loop of `sendDiscordWebhookText`: posts each chunk in order
(embeds only while `isFirst`), tracking the last result; a failing call
aborts the remainder.  Calls are numbered from `n`; returns the final
`lastResult` (or the propagated error) and the requests issued. -/
def sendChunks {α : Type} (net : Net) (opts : WebhookSendOptions α) :
    List String → Bool → Option WebhookSendResult → Nat →
    Except SendError (Option WebhookSendResult) × List (Request α)
  | [], _, last, _ => (.ok last, [])
  | c :: rest, isFirst, _, n =>
    let req : Request α := .text (buildBody c { opts with embeds := if isFirst then opts.embeds else none })
    match net n with
    | .ok r =>
      let out := sendChunks net opts rest false (some r) (n + 1)
      (out.1, req :: out.2)
    | .error e => (.error (.transport e), [req])

/-- The message of the empty-text validation error thrown by
`sendDiscordWebhookText`. -/
def validationMsg : String := "Message must be non-empty for Discord webhook sends"

/-- Translated from `sendDiscordWebhookText` in send.webhook.ts. -/
def sendDiscordWebhookText {α : Type} (chunker : Chunker) (net : Net) (text : String)
    (opts : WebhookSendOptions α) : Except SendError WebhookSendResult × List (Request α) :=
  if jsTrim text = "" then (.error (.validation validationMsg), [])
  else
    let chunks := effectiveChunks chunker text opts
    let out := sendChunks net opts chunks true none 0
    match out.1 with
    | .ok (some r) => (.ok r, out.2)
    | .ok none => (.error .emptyResult, out.2)
    | .error e => (.error e, out.2)

/-- The follow-up loop of `sendDiscordWebhookMedia`: remaining chunks are
posted in order with the original `opts`, silently skipping chunks that
are empty after trimming; a failing call aborts the remainder. -/
def sendFollowUps {α : Type} (net : Net) (opts : WebhookSendOptions α) :
    List String → Nat → Except SendError Unit × List (Request α)
  | [], _ => (.ok (), [])
  | c :: rest, n =>
    if jsTrim c = "" then sendFollowUps net opts rest n
    else
      let req : Request α := .text (buildBody c opts)
      match net n with
      | .ok _ =>
        let out := sendFollowUps net opts rest (n + 1)
        (out.1, req :: out.2)
      | .error e => (.error (.transport e), [req])

/-- The chunk list used by `sendDiscordWebhookMedia`: empty for falsy
caption text, else the same computation as the text path. -/
def mediaChunks {α : Type} (chunker : Chunker) (text : String)
    (opts : WebhookSendOptions α) : List String :=
  if text = "" then [] else effectiveChunks chunker text opts

/-- Translated from `sendDiscordWebhookMedia` in send.webhook.ts, with the
already-loaded media passed in (`loadWebMedia` is external).  The file
post carries the first chunk as caption and `opts.embeds` (the TS spread
`{...opts, embeds: opts.embeds}` is the identity on `opts`); remaining
chunks go out as follow-up text posts with the unchanged `opts`. -/
def sendDiscordWebhookMedia {α : Type} (chunker : Chunker) (net : Net) (text : String)
    (media : WebMedia) (opts : WebhookSendOptions α) :
    Except SendError WebhookSendResult × List (Request α) :=
  let chunks := mediaChunks chunker text opts
  let caption := chunks.headD ("")
  let freq : Request α := .file (buildFileBody caption media opts)
  match net 0 with
  | .error e => (.error (.transport e), [freq])
  | .ok result =>
    let follow := sendFollowUps net opts (chunks.drop 1) 1
    match follow.1 with
    | .ok _ => (.ok result, freq :: follow.2)
    | .error e => (.error e, freq :: follow.2)

/-! ## Delivery orchestrator (the Discord channel adapter) -/

/-- One channel entry of the configuration:
`guilds.<gid>.channels.<cid>.webhook`. -/
structure DiscordChannelConfig where
  webhook : Option String := none
  deriving Repr, DecidableEq

/-- One guild entry of the configuration; channels keyed by channel id. -/
structure GuildConfig where
  channels : Option (List (String × DiscordChannelConfig)) := none
  deriving Repr, DecidableEq

/-- The configuration root, reduced to the only part this adapter reads:
`cfg.channels?.discord?.guilds`, as a list in object-enumeration order. -/
structure OpenClawConfig where
  guilds : Option (List GuildConfig) := none
  deriving Repr, DecidableEq

/-- The guild scan of `resolveWebhookUrl`: first guild whose channel map
has a truthy `webhook` for this channel id wins. -/
def scanGuilds (channelId : String) : List GuildConfig → Option String
  | [] => none
  | g :: rest =>
    match g.channels with
    | none => scanGuilds channelId rest
    | some chans =>
      match chans.lookup channelId with
      | some cc =>
        match cc.webhook with
        | some w => if ¬ w = "" then some w else scanGuilds channelId rest
        | none => scanGuilds channelId rest
      | none => scanGuilds channelId rest

/-- Translated from `resolveWebhookUrl` in the Discord adapter. -/
def resolveWebhookUrl (cfg : OpenClawConfig) (channelId : String) : Option String :=
  match cfg.guilds with
  | none => none
  | some gs => scanGuilds channelId gs

/-- The snowflake test `/^\d{17,20}$/` of `extractChannelId`. -/
def isSnowflake (l : List Char) : Bool :=
  decide (17 ≤ l.length) && decide (l.length ≤ 20) && l.all Char.isDigit

/-- Translated from `extractChannelId` in the Discord adapter. -/
def extractChannelId («to» : String) : Option String :=
  let trimmed := trimChars «to».data
  if startsWithChars ("channel:").data trimmed then
    some (String.mk (trimChars (trimmed.drop 8)))
  else if isSnowflake trimmed then some (String.mk trimmed)
  else none

/-- Translated from `ChannelOutboundContext` (the fields this adapter reads). -/
structure ChannelOutboundContext where
  «to» : String
  text : String
  mediaUrl : Option String := none
  cfg : OpenClawConfig
  accountId : Option String := none
  replyToId : Option String := none
  agentId : Option String := none
  deriving Repr, DecidableEq

/-- The arguments forwarded to the bot-API sender on the fallback path. -/
structure BotCall where
  «to» : String
  text : String
  mediaUrl : Option String
  replyTo : Option String
  accountId : Option String
  deriving Repr, DecidableEq

/-- The receipt the orchestrator returns: channel tag plus message and
channel identifiers. -/
structure DiscordSendResult where
  channel : String
  messageId : String
  channelId : String
  deriving Repr, DecidableEq

instance {ε α : Type} [DecidableEq ε] [DecidableEq α] : DecidableEq (Except ε α)
  | .ok x, .ok y =>
    if h : x = y then .isTrue (congrArg Except.ok h)
    else .isFalse fun hc => h (Except.ok.inj hc)
  | .error x, .error y =>
    if h : x = y then .isTrue (congrArg Except.error h)
    else .isFalse fun hc => h (Except.error.inj hc)
  | .ok _, .error _ => .isFalse fun hc => Except.noConfusion hc
  | .error _, .ok _ => .isFalse fun hc => Except.noConfusion hc

/-- Observable outcome of one orchestrator operation: the returned (or
thrown) value, the webhook requests issued, and the bot-API call made on
the fallback path, if any. -/
structure OrchOutcome (α : Type) where
  result : Except SendError DiscordSendResult
  webhookRequests : List (Request α)
  botCall : Option BotCall
  deriving Repr, DecidableEq

/-- The agent-identity resolver (`resolveWebhookIdentity`), supplied as an
oracle since it reads the filesystem. -/
abbrev IdentityResolver := String → Option WebhookIdentity

/-- The external bot-API sender (`sendMessageDiscord` or the injected
`deps.sendDiscord`), supplied as an oracle. -/
abbrev BotSender := BotCall → WebhookSendResult

/-- The orchestrator's webhook-endpoint resolution:
`channelId ? resolveWebhookUrl(cfg, channelId) : undefined`. -/
def orchWebhookUrl (cfg : OpenClawConfig) («to» : String) : Option String :=
  match extractChannelId «to» with
  | some cid => if ¬ cid = "" then resolveWebhookUrl cfg cid else none
  | none => none

/-- The bot-API fallback of `sendTextWithWebhookFallback`: no media URL is
forwarded on the text path. -/
def botFallbackText {α : Type} (botSend : BotSender) (ctx : ChannelOutboundContext) :
    OrchOutcome α :=
  let call : BotCall :=
    { «to» := ctx.«to», text := ctx.text, mediaUrl := none
      replyTo := ctx.replyToId, accountId := ctx.accountId }
  { result := .ok
      { channel := "discord"
        messageId := (botSend call).messageId
        channelId := (botSend call).channelId }
    webhookRequests := []
    botCall := some call }

/-- Translated from `sendTextWithWebhookFallback` in the Discord adapter. -/
def sendTextWithWebhookFallback {α : Type} (chunker : Chunker) (net : Net)
    (resolveIdentity : IdentityResolver) (botSend : BotSender)
    (ctx : ChannelOutboundContext) : OrchOutcome α :=
  match orchWebhookUrl ctx.cfg ctx.«to», ctx.agentId with
  | some wu, some aid =>
    if ¬ wu = "" ∧ ¬ aid = "" then
      match resolveIdentity aid with
      | some identity =>
        let out := sendDiscordWebhookText chunker net ctx.text
          { webhookUrl := wu, identity := some identity }
        { result := out.1.map fun r =>
            { channel := "discord", messageId := r.messageId, channelId := r.channelId }
          webhookRequests := out.2
          botCall := none }
      | none => botFallbackText botSend ctx
    else botFallbackText botSend ctx
  | _, _ => botFallbackText botSend ctx

/-- The bot-API fallback of `sendMediaWithWebhookFallback`: the media URL
is forwarded. -/
def botFallbackMedia {α : Type} (botSend : BotSender) (ctx : ChannelOutboundContext) :
    OrchOutcome α :=
  let call : BotCall :=
    { «to» := ctx.«to», text := ctx.text, mediaUrl := ctx.mediaUrl
      replyTo := ctx.replyToId, accountId := ctx.accountId }
  { result := .ok
      { channel := "discord"
        messageId := (botSend call).messageId
        channelId := (botSend call).channelId }
    webhookRequests := []
    botCall := some call }

/-- Translated from `sendMediaWithWebhookFallback` in the Discord adapter;
`loadMedia` abstracts the external `loadWebMedia` fetch. -/
def sendMediaWithWebhookFallback {α : Type} (chunker : Chunker) (net : Net)
    (resolveIdentity : IdentityResolver) (botSend : BotSender)
    (loadMedia : String → WebMedia) (ctx : ChannelOutboundContext) : OrchOutcome α :=
  match orchWebhookUrl ctx.cfg ctx.«to», ctx.agentId, ctx.mediaUrl with
  | some wu, some aid, some mu =>
    if ¬ wu = "" ∧ ¬ aid = "" ∧ ¬ mu = "" then
      match resolveIdentity aid with
      | some identity =>
        let out := sendDiscordWebhookMedia chunker net ctx.text (loadMedia mu)
          { webhookUrl := wu, identity := some identity }
        { result := out.1.map fun r =>
            { channel := "discord", messageId := r.messageId, channelId := r.channelId }
          webhookRequests := out.2
          botCall := none }
      | none => botFallbackMedia botSend ctx
    else botFallbackMedia botSend ctx
  | _, _, _ => botFallbackMedia botSend ctx

/-! ## Agent identity resolution (agent-identity source) -/

/-- Translated from `AgentIdentity` in the agent-identity source. -/
structure AgentIdentity where
  name : String
  emoji : Option String := none
  creature : Option String := none
  vibe : Option String := none
  avatar : Option String := none
  deriving Repr, DecidableEq

/-- The mutable locals of `parseIdentityMd` while scanning lines. -/
structure IdFields where
  name : Option String := none
  emoji : Option String := none
  creature : Option String := none
  vibe : Option String := none
  avatar : Option String := none
  deriving Repr, DecidableEq

/-- The per-line match of `parseIdentityMd` against
`/^\s*-\s*\*\*(\w+):\*\*\s*(.+)$/`, returning the lower-cased field name
and the trimmed value.  The regex matches exactly when the line has the
`- **Field:**` shape with a non-empty remainder; greedy `\s*` followed by
`.+` makes the stored `value.trim()` equal the trim of that remainder. -/
def parseIdentityLine (line : List Char) : Option (String × String) :=
  match line.dropWhile Char.isWhitespace with
  | '-' :: rest =>
    let afterDash := rest.dropWhile Char.isWhitespace
    match dropExact ['*', '*'] afterDash with
    | some afterStars =>
      let field := afterStars.takeWhile isWordChar
      if field = [] then none
      else
        match dropExact [':', '*', '*'] (afterStars.dropWhile isWordChar) with
        | some rest2 =>
          if rest2 = [] then none
          else some (String.mk (field.map asciiLower), String.mk (trimChars rest2))
        | none => none
    | none => none
  | _ => none

/-- The `switch (field.toLowerCase())` of `parseIdentityMd`: store the
value under the recognised field, ignore anything else (last one wins). -/
def updField (st : IdFields) (fv : String × String) : IdFields :=
  if fv.1 = "name" then { st with name := some fv.2 }
  else if fv.1 = "emoji" then { st with emoji := some fv.2 }
  else if fv.1 = "creature" then { st with creature := some fv.2 }
  else if fv.1 = "vibe" then { st with vibe := some fv.2 }
  else if fv.1 = "avatar" then { st with avatar := some fv.2 }
  else st

/-- Translated from `parseIdentityMd` in the agent-identity source.  A
falsy final `name` (unset, or set to the empty string) yields no
identity at all. -/
def parseIdentityMd (content : String) : Option AgentIdentity :=
  let st := (splitOnNl content.data).foldl
    (fun st line =>
      match parseIdentityLine line with
      | some fv => updField st fv
      | none => st)
    {}
  match st.name with
  | some n =>
    if n = "" then none
    else some
      { name := n, emoji := st.emoji, creature := st.creature
        vibe := st.vibe, avatar := st.avatar }
  | none => none

/-- Translated from `loadAgentIdentity` in the agent-identity source: the
filesystem read is abstracted into its outcome, and every read failure is
caught and turned into `none`. -/
def loadAgentIdentity (readResult : Except String String) : Option AgentIdentity :=
  match readResult with
  | .ok content => parseIdentityMd content
  | .error _ => none

/-- Node's `path.join` on the simple segments used here. -/
def joinPath (a b : String) : String := a ++ "/" ++ b

/-- Translated from `resolveAgentIdentityById` in the agent-identity
source: the workspace-directory computation (the read itself is
external).  The JS is
`(baseWorkspaceDir ?? process.env.HOME) ? join(process.env.HOME!, "workspace") : "/home/clawd/workspace"`,
then joined with the agent id; `join(undefined, …)` (when the nullish
result is truthy but `HOME` is unset) throws, modelled as `.error`. -/
def resolveAgentWorkspaceDir (baseWorkspaceDir home : Option String)
    (agentId : String) : Except String String :=
  let nullish := match baseWorkspaceDir with
    | some b => some b
    | none => home
  let truthy : Bool := match nullish with
    | some s => ! (s == "")
    | none => false
  if truthy then
    match home with
    | some h => .ok (joinPath (joinPath h ("workspace")) agentId)
    | none => .error ("TypeError: path.join received undefined")
  else .ok (joinPath ("/home/clawd/workspace") agentId)

/-- Translated from `toWebhookIdentity` in the agent-identity source. -/
def toWebhookIdentity (identity : AgentIdentity)
    (avatarUrlOverride : Option String := none) : WebhookIdentity :=
  let displayName := match identity.emoji with
    | some e => if ¬ e = "" then e ++ " " ++ identity.name else identity.name
    | none => identity.name
  { username := some displayName
    avatarUrl := match avatarUrlOverride with
      | some a => some a
      | none => identity.avatar }

/-! ## Specification helpers and concrete instances used in the theorems -/

/-- The requests the text-send chunk loop issues, chunk by chunk: embeds
only while `isFirst`. -/
def chunkReqs {α : Type} (opts : WebhookSendOptions α) :
    List String → Bool → List (Request α)
  | [], _ => []
  | c :: rest, isFirst =>
    .text (buildBody c { opts with embeds := if isFirst then opts.embeds else none })
      :: chunkReqs opts rest false

/-- The number of chunks of a list that survive the follow-up loop's
blank-chunk skip. -/
def nonBlankCount (l : List String) : Nat :=
  (l.filter fun c => ! (jsTrim c == "")).length

/-- A chunking policy that always yields two chunks. -/
def chunkerAB : Chunker := fun _ _ => ["a", "b"]

/-- A chunking policy that always yields three chunks. -/
def chunkerABC : Chunker := fun _ _ => ["a", "b", "c"]

/-- A network on which every call succeeds with a fixed result. -/
def netOkMC : Net := okNet fun _ => { messageId := "m", channelId := "c" }

/-- A network whose second call (index 1) fails with a 500. -/
def netFailAt1 : Net := fun n =>
  if n = 1 then .error { status := 500, body := "boom" }
  else .ok { messageId := "m", channelId := "c" }

/-- Options carrying one rich-embed payload. -/
def optsEmbeds7 : WebhookSendOptions Nat := { webhookUrl := "https://w", embeds := some [7] }

/-- Options with no embeds. -/
def optsPlain : WebhookSendOptions Nat := { webhookUrl := "https://w" }

/-- A one-byte media blob. -/
def mediaBlob : WebMedia := { buffer := [0] }

/-- A configuration with a webhook configured for one channel. -/
def cfgHook : OpenClawConfig :=
  { guilds := some [{ channels := some [("12345678901234567", { webhook := some "https://hook" })] }] }

/-- A context whose address, configuration and agent id all resolve. -/
def ctxHook : ChannelOutboundContext :=
  { «to» := "12345678901234567", text := "hello", cfg := cfgHook, agentId := some "amber" }

/-- An identity resolver that always resolves. -/
def resolverA : IdentityResolver := fun _ => some { username := some "A" }

/-- A bot-API sender returning a fixed result. -/
def botEcho : BotSender := fun _ => { messageId := "bm", channelId := "bc" }

/-! ## Helper lemmas -/

theorem scanGuilds_ne_empty (channelId : String) :
    ∀ (gs : List GuildConfig) (w : String), scanGuilds channelId gs = some w → ¬ w = "" := by
  intro gs
  induction gs with
  | nil => intro w h; simp [scanGuilds] at h
  | cons g rest ih =>
    intro w h
    rcases hch : g.channels with _ | chans <;> simp [scanGuilds, hch] at h
    · exact ih w h
    · rcases hcc : chans.lookup channelId with _ | cc <;> simp [hcc] at h
      · exact ih w h
      · rcases hw : cc.webhook with _ | w0 <;> simp [hw] at h
        · exact ih w h
        · by_cases h0 : w0 = ""
          · simp [h0] at h; exact ih w h
          · simp [h0] at h; subst h; exact h0

theorem orchWebhookUrl_ne_empty (cfg : OpenClawConfig) («to» w : String)
    (h : orchWebhookUrl cfg «to» = some w) : ¬ w = "" := by
  unfold orchWebhookUrl at h
  rcases hcid : extractChannelId «to» with _ | cid <;> simp [hcid] at h
  by_cases h0 : cid = "" <;> simp [h0] at h
  unfold resolveWebhookUrl at h
  rcases hgs : cfg.guilds with _ | gs <;> simp [hgs] at h
  exact scanGuilds_ne_empty cid gs w h

theorem jsTrim_empty : jsTrim "" = "" := rfl

theorem effectiveChunks_ne_nil {α : Type} (chunker : Chunker) (text : String)
    (opts : WebhookSendOptions α) (h : ¬ text = "") :
    ¬ effectiveChunks chunker text opts = [] := by
  unfold effectiveChunks
  by_cases hc : chunker text
      { maxChars := DISCORD_TEXT_LIMIT
        maxLines := opts.maxLinesPerMessage
        chunkMode := opts.chunkMode } = [] <;>
    simp [hc, h]

theorem sendChunks_okNet {α : Type} (f : Nat → WebhookSendResult) (opts : WebhookSendOptions α)
    (chunks : List String) :
    ∀ (isFirst : Bool) (last : Option WebhookSendResult) (n : Nat),
    sendChunks (okNet f) opts chunks isFirst last n =
      (.ok (if chunks.isEmpty then last else some (f (n + chunks.length - 1))),
       chunkReqs opts chunks isFirst) := by
  induction chunks with
  | nil => intro isFirst last n; simp [sendChunks, chunkReqs]
  | cons c rest ih =>
    intro isFirst last n
    simp only [sendChunks, okNet, chunkReqs, ih false (some (f n)) (n + 1)]
    rcases rest with _ | ⟨d, ds⟩
    · simp
    · simp only [List.isEmpty_cons, List.length_cons]
      have harith : n + 1 + (ds.length + 1) - 1 = n + (ds.length + 1 + 1) - 1 := by omega
      simp [harith]

theorem chunkReqs_length {α : Type} (opts : WebhookSendOptions α) (chunks : List String) :
    ∀ isFirst, (chunkReqs opts chunks isFirst).length = chunks.length := by
  induction chunks with
  | nil => intro isFirst; simp [chunkReqs]
  | cons c rest ih => intro isFirst; simp [chunkReqs, ih false]

theorem chunkReqs_getElem {α : Type} (opts : WebhookSendOptions α) (chunks : List String) :
    ∀ (isFirst : Bool) (i : Nat),
    (chunkReqs opts chunks isFirst)[i]? = (chunks[i]?).map fun c =>
      .text (buildBody c { opts with embeds := if isFirst ∧ i = 0 then opts.embeds else none }) := by
  induction chunks with
  | nil => intro isFirst i; simp [chunkReqs]
  | cons c rest ih =>
    intro isFirst i
    rcases i with _ | j
    · rcases isFirst with _ | _ <;> simp [chunkReqs]
    · simp [chunkReqs, ih false j]

theorem sendChunks_embedsOf {α : Type} (net : Net) (opts : WebhookSendOptions α)
    (chunks : List String) :
    ∀ (isFirst : Bool) (last : Option WebhookSendResult) (n i : Nat) (req : Request α),
    (sendChunks net opts chunks isFirst last n).2[i]? = some req →
    req.embedsOf = if isFirst ∧ i = 0 then nonemptyEmbeds opts.embeds else none := by
  induction chunks with
  | nil => intro isFirst last n i req h; simp [sendChunks] at h
  | cons c rest ih =>
    intro isFirst last n i req h
    simp only [sendChunks] at h
    rcases hn : net n with e | r <;> simp [hn] at h
    · rcases i with _ | j <;> simp at h
      subst h
      rcases isFirst with _ | _ <;> simp [Request.embedsOf, buildBody, nonemptyEmbeds]
    · rcases i with _ | j
      · simp at h
        subst h
        rcases isFirst with _ | _ <;> simp [Request.embedsOf, buildBody, nonemptyEmbeds]
      · simp at h
        have := ih false (some r) (n + 1) j req h
        simp at this
        simp [this]

theorem sendFollowUps_reqShape {α : Type} (net : Net) (opts : WebhookSendOptions α)
    (l : List String) :
    ∀ (n i : Nat) (req : Request α),
    (sendFollowUps net opts l n).2[i]? = some req →
    ∃ c, req = .text (buildBody c opts) := by
  induction l with
  | nil => intro n i req h; simp [sendFollowUps] at h
  | cons c rest ih =>
    intro n i req h
    simp only [sendFollowUps] at h
    by_cases hb : jsTrim c = ""
    · simp only [hb, if_pos rfl] at h
      simp at h
      exact ih n i req h
    · simp only [if_neg hb] at h
      rcases hn : net n with e | r <;> simp [hn] at h
      · rcases i with _ | j <;> simp at h
        exact ⟨c, h.symm⟩
      · rcases i with _ | j
        · simp at h; exact ⟨c, h.symm⟩
        · simp at h; exact ih (n + 1) j req h

theorem sendChunks_fail {α : Type} (net : Net) (opts : WebhookSendOptions α)
    (e : TransportErr) (chunks : List String) :
    ∀ (k n : Nat) (isFirst : Bool) (last : Option WebhookSendResult),
    (∀ j, j < k → ∃ r, net (n + j) = .ok r) → net (n + k) = .error e →
    k < chunks.length →
    (sendChunks net opts chunks isFirst last n).1 = .error (.transport e) ∧
    (sendChunks net opts chunks isFirst last n).2.length = k + 1 := by
  induction chunks with
  | nil => intro k n isFirst last hok hfail hk; simp at hk
  | cons c rest ih =>
    intro k n isFirst last hok hfail hk
    rcases k with _ | m
    · simp at hfail
      simp [sendChunks, hfail]
    · obtain ⟨r, hr⟩ := hok 0 (Nat.succ_pos m)
      simp at hr
      have hok' : ∀ j, j < m → ∃ r, net (n + 1 + j) = .ok r := by
        intro j hj
        have := hok (j + 1) (by omega)
        simpa [Nat.add_assoc, Nat.add_comm 1 j] using this
      have hfail' : net (n + 1 + m) = .error e := by
        simpa [Nat.add_assoc, Nat.add_comm 1 m] using hfail
      have hm : m < rest.length := by simp at hk; omega
      have := ih m (n + 1) false (some r) hok' hfail' hm
      simp [sendChunks, hr, this.1, this.2]

theorem sendFollowUps_fail {α : Type} (net : Net) (opts : WebhookSendOptions α)
    (e : TransportErr) (l : List String) :
    ∀ (m n : Nat),
    (∀ j, j < m → ∃ r, net (n + j) = .ok r) → net (n + m) = .error e →
    m < nonBlankCount l →
    (sendFollowUps net opts l n).1 = .error (.transport e) ∧
    (sendFollowUps net opts l n).2.length = m + 1 := by
  induction l with
  | nil => intro m n hok hfail hm; simp [nonBlankCount] at hm
  | cons c rest ih =>
    intro m n hok hfail hm
    by_cases hb : jsTrim c = ""
    · have hm' : m < nonBlankCount rest := by
        simpa [nonBlankCount, List.filter, hb] using hm
      have := ih m n hok hfail hm'
      simpa [sendFollowUps, hb] using this
    · rcases m with _ | m'
      · simp at hfail
        simp [sendFollowUps, hb, hfail]
      · obtain ⟨r, hr⟩ := hok 0 (Nat.succ_pos m')
        simp at hr
        have hok' : ∀ j, j < m' → ∃ r, net (n + 1 + j) = .ok r := by
          intro j hj
          have := hok (j + 1) (by omega)
          simpa [Nat.add_assoc, Nat.add_comm 1 j] using this
        have hfail' : net (n + 1 + m') = .error e := by
          simpa [Nat.add_assoc, Nat.add_comm 1 m'] using hfail
        have hm' : m' < nonBlankCount rest := by
          have hbc : (! (jsTrim c == "")) = true := by simp [hb]
          simp [nonBlankCount, List.filter_cons, hbc] at hm
          simpa [nonBlankCount] using hm
        have := ih m' (n + 1) hok' hfail' hm'
        simp [sendFollowUps, hb, hr, this.1, this.2]

theorem sendFollowUps_err_shape {α : Type} (net : Net) (opts : WebhookSendOptions α)
    (l : List String) :
    ∀ n, (sendFollowUps net opts l n).1 = .ok () ∨
      ∃ e, (sendFollowUps net opts l n).1 = .error (.transport e) := by
  induction l with
  | nil => intro n; left; simp [sendFollowUps]
  | cons c rest ih =>
    intro n
    by_cases hb : jsTrim c = ""
    · simpa [sendFollowUps, hb] using ih n
    · rcases hn : net n with e | r
      · right; exact ⟨e, by simp [sendFollowUps, hb, hn]⟩
      · simpa [sendFollowUps, hb, hn] using ih (n + 1)

theorem sendChunks_replyTo {α : Type} (net : Net) (wu : String)
    (idn : Option WebhookIdentity) (r₁ r₂ tid : Option String) (ml : Option Nat)
    (cm : Option ChunkMode) (em : Option (List α)) (chunks : List String) :
    ∀ (isFirst : Bool) (last : Option WebhookSendResult) (n : Nat),
    sendChunks net ⟨wu, idn, r₁, tid, ml, cm, em⟩ chunks isFirst last n =
      sendChunks net ⟨wu, idn, r₂, tid, ml, cm, em⟩ chunks isFirst last n := by
  induction chunks with
  | nil => intro isFirst last n; rfl
  | cons c rest ih =>
    intro isFirst last n
    simp only [sendChunks]
    rcases hn : net n with e | r'
    · simp only [hn]; rfl
    · simp only [hn, ih false (some r') (n + 1)]; rfl

theorem sendFollowUps_replyTo {α : Type} (net : Net) (wu : String)
    (idn : Option WebhookIdentity) (r₁ r₂ tid : Option String) (ml : Option Nat)
    (cm : Option ChunkMode) (em : Option (List α)) (l : List String) :
    ∀ n, sendFollowUps net ⟨wu, idn, r₁, tid, ml, cm, em⟩ l n =
      sendFollowUps net ⟨wu, idn, r₂, tid, ml, cm, em⟩ l n := by
  induction l with
  | nil => intro n; rfl
  | cons c rest ih =>
    intro n
    simp only [sendFollowUps]
    by_cases hb : jsTrim c = ""
    · simp [hb, ih n]
    · rcases hn : net n with e | r'
      · simp only [if_neg hb, hn]; rfl
      · simp only [if_neg hb, hn, ih (n + 1)]; rfl

theorem sendDiscordWebhookText_replyTo {α : Type} (chunker : Chunker) (net : Net)
    (text : String) (wu : String) (idn : Option WebhookIdentity)
    (r₁ r₂ tid : Option String) (ml : Option Nat) (cm : Option ChunkMode)
    (em : Option (List α)) :
    sendDiscordWebhookText chunker net text ⟨wu, idn, r₁, tid, ml, cm, em⟩ =
      sendDiscordWebhookText chunker net text ⟨wu, idn, r₂, tid, ml, cm, em⟩ := by
  unfold sendDiscordWebhookText
  have he : effectiveChunks chunker text (⟨wu, idn, r₁, tid, ml, cm, em⟩ : WebhookSendOptions α) =
      effectiveChunks chunker text (⟨wu, idn, r₂, tid, ml, cm, em⟩ : WebhookSendOptions α) := rfl
  rw [he]
  simp only [sendChunks_replyTo net wu idn r₁ r₂ tid ml cm em]

theorem sendDiscordWebhookMedia_replyTo {α : Type} (chunker : Chunker) (net : Net)
    (text : String) (media : WebMedia) (wu : String) (idn : Option WebhookIdentity)
    (r₁ r₂ tid : Option String) (ml : Option Nat) (cm : Option ChunkMode)
    (em : Option (List α)) :
    sendDiscordWebhookMedia chunker net text media ⟨wu, idn, r₁, tid, ml, cm, em⟩ =
      sendDiscordWebhookMedia chunker net text media ⟨wu, idn, r₂, tid, ml, cm, em⟩ := by
  unfold sendDiscordWebhookMedia
  have he : mediaChunks chunker text (⟨wu, idn, r₁, tid, ml, cm, em⟩ : WebhookSendOptions α) =
      mediaChunks chunker text (⟨wu, idn, r₂, tid, ml, cm, em⟩ : WebhookSendOptions α) := rfl
  rw [he]
  simp only [sendFollowUps_replyTo net wu idn r₁ r₂ tid ml cm em]
  rfl

theorem updField_name_of_ne (st : IdFields) (fv : String × String)
    (h : ¬ fv.1 = "name") : (updField st fv).name = st.name := by
  unfold updField
  split_ifs with h1 h2 h3 h4 <;> first | exact absurd h1 h | rfl

/-! ## Claims -/

/-- C2 (code bug): `resolveAgentIdentityById` is claimed to join the
explicit base-directory override (when supplied) with the agent id, but
the code tests `(baseWorkspaceDir ?? HOME)` for truthiness and then
always joins from `HOME`: with override `/custom`, `HOME=/home/u` and
agent id `a` it yields `/home/u/workspace/a`, not the claimed
`/custom/a`; with the override supplied and `HOME` unset it even throws
instead of using the override. -/
theorem resolveAgentWorkspaceDir_override_ignored :
    resolveAgentWorkspaceDir (some ("/custom")) (some ("/home/u")) ("a") =
      .ok ("/home/u/workspace/a") ∧
    joinPath ("/custom") ("a") = "/custom/a" ∧
    ¬ ("/home/u/workspace/a" : String) = "/custom/a" ∧
    resolveAgentWorkspaceDir (some ("/custom")) none ("a") =
      .error ("TypeError: path.join received undefined") ∧
    resolveAgentWorkspaceDir none (some ("/home/u")) ("a") = .ok ("/home/u/workspace/a") ∧
    resolveAgentWorkspaceDir none none ("a") = .ok ("/home/clawd/workspace/a") := by
  decide

/-- C6: for every address, a trimmed `channel:` prefix resolves to the
trimmed remainder; otherwise a trimmed all-digit address of length 17–20
resolves to itself; every other shape resolves to `none`. -/
theorem extractChannelId_resolution («to» : String) :
    (startsWithChars ("channel:").data (trimChars «to».data) = true →
      extractChannelId «to» = some (String.mk (trimChars ((trimChars «to».data).drop 8)))) ∧
    (startsWithChars ("channel:").data (trimChars «to».data) = false →
      (17 ≤ (trimChars «to».data).length ∧ (trimChars «to».data).length ≤ 20 ∧
        ∀ c ∈ trimChars «to».data, c.isDigit = true) →
      extractChannelId «to» = some (String.mk (trimChars «to».data))) ∧
    (startsWithChars ("channel:").data (trimChars «to».data) = false →
      ¬ (17 ≤ (trimChars «to».data).length ∧ (trimChars «to».data).length ≤ 20 ∧
        ∀ c ∈ trimChars «to».data, c.isDigit = true) →
      extractChannelId «to» = none) := by
  refine ⟨?_, ?_, ?_⟩
  · intro h
    simp [extractChannelId, h]
  · intro h hsn
    have hs : isSnowflake (trimChars «to».data) = true := by
      simp only [isSnowflake, Bool.and_eq_true, decide_eq_true_eq, List.all_eq_true]
      exact ⟨⟨hsn.1, hsn.2.1⟩, hsn.2.2⟩
    simp [extractChannelId, h, hs]
  · intro h hsn
    have hs : isSnowflake (trimChars «to».data) = false := by
      rw [Bool.eq_false_iff]
      intro hcon
      apply hsn
      simp only [isSnowflake, Bool.and_eq_true, decide_eq_true_eq, List.all_eq_true] at hcon
      exact ⟨hcon.1.1, hcon.1.2, hcon.2⟩
    simp [extractChannelId, h, hs]

/-- C6 witness: the three resolution rules at concrete addresses. -/
theorem extractChannelId_resolution_witness :
    extractChannelId ("channel: 123 ") = some ("123") ∧
    extractChannelId ("12345678901234567") = some ("12345678901234567") ∧
    extractChannelId ("abc") = none := by
  refine ⟨?_, ?_, ?_⟩
  · exact (extractChannelId_resolution ("channel: 123 ")).1 (by decide)
  · exact (extractChannelId_resolution ("12345678901234567")).2.1 (by decide) (by decide)
  · exact (extractChannelId_resolution ("abc")).2.2 (by decide) (by decide)

/-- C7: identity resolution is total — a failed profile read yields no
identity (never an error), and a profile whose lines never set a `name`
field parses to no identity, whatever other fields are present. -/
theorem identity_resolution_never_errors :
    (∀ e, loadAgentIdentity (.error e) = none) ∧
    (∀ content : String,
      ((splitOnNl content.data).all fun line =>
        ! ((parseIdentityLine line).map Prod.fst == some ("name"))) = true →
      parseIdentityMd content = none) := by
  constructor
  · intro e; rfl
  · intro content hall
    have key : ∀ (lines : List (List Char)) (st : IdFields),
        (lines.all fun line =>
          ! ((parseIdentityLine line).map Prod.fst == some ("name"))) = true →
        st.name = none →
        (lines.foldl (fun st line =>
          match parseIdentityLine line with
          | some fv => updField st fv
          | none => st) st).name = none := by
      intro lines
      induction lines with
      | nil => intro st _ hst; simpa using hst
      | cons line rest ih =>
        intro st hall hst
        simp only [List.all_cons, Bool.and_eq_true] at hall
        rcases hp : parseIdentityLine line with _ | fv
        · simp only [List.foldl_cons, hp]
          exact ih st hall.2 hst
        · have hne : ¬ fv.1 = "name" := by
            have h1 := hall.1
            rw [hp] at h1
            simp only [Option.map_some, Bool.not_eq_eq_eq_not, Bool.not_true,
              beq_eq_false_iff_ne, ne_eq] at h1
            intro hcon
            exact h1 (by simp [hcon])
          simp only [List.foldl_cons, hp]
          exact ih _ hall.2 (by rw [updField_name_of_ne st fv hne]; exact hst)
    have hname := key (splitOnNl content.data)
      { name := none, emoji := none, creature := none, vibe := none, avatar := none } hall rfl
    unfold parseIdentityMd
    simp only [hname]

/-- C7 witness: a read error and a nameless profile both resolve to none. -/
theorem identity_resolution_never_errors_witness :
    loadAgentIdentity (.error ("ENOENT")) = none ∧
    parseIdentityMd ("- **Emoji:** x\n- **Avatar:** y\nhello") = none := by
  constructor
  · exact identity_resolution_never_errors.1 ("ENOENT")
  · exact identity_resolution_never_errors.2 ("- **Emoji:** x\n- **Avatar:** y\nhello") (by decide)

/-- C8 counterexample: an `AgentIdentity` whose emoji field is present but
empty (producible from a profile line `- **Emoji:**   `) yields the bare
name, not `"<emoji> <name>"` as the claim states for every present emoji. -/
theorem toWebhookIdentity_display_cex :
    parseIdentityMd ("- **Name:** Ember\n- **Emoji:**   ") =
      some { name := "Ember", emoji := some ("") } ∧
    (toWebhookIdentity { name := "Ember", emoji := some ("") } none).username =
      some ("Ember") ∧
    ¬ (toWebhookIdentity { name := "Ember", emoji := some ("") } none).username =
      some ("" ++ " " ++ "Ember") := by
  decide

/-- C8 (amended): the derived display name is `"<emoji> <name>"` when a
non-empty emoji is present and exactly the name otherwise (absent or
empty emoji); the avatar is the explicit override when supplied, else the
profile's avatar field; `Name: Ember` with `Emoji: 🔥` gives exactly
`🔥 Ember`. -/
theorem toWebhookIdentity_display (identity : AgentIdentity)
    (avatarUrlOverride : Option String) :
    (∀ e, identity.emoji = some e → ¬ e = "" →
      (toWebhookIdentity identity avatarUrlOverride).username =
        some (e ++ " " ++ identity.name)) ∧
    ((identity.emoji = none ∨ identity.emoji = some ("")) →
      (toWebhookIdentity identity avatarUrlOverride).username = some identity.name) ∧
    (∀ a, avatarUrlOverride = some a →
      (toWebhookIdentity identity avatarUrlOverride).avatarUrl = some a) ∧
    (avatarUrlOverride = none →
      (toWebhookIdentity identity avatarUrlOverride).avatarUrl = identity.avatar) ∧
    (toWebhookIdentity { name := "Ember", emoji := some ("🔥") } none).username =
      some ("🔥 Ember") := by
  refine ⟨?_, ?_, ?_, ?_, by decide⟩
  · intro e he hne
    simp [toWebhookIdentity, he, hne]
  · intro h
    rcases h with h | h <;> simp [toWebhookIdentity, h]
  · intro a ha
    simp [toWebhookIdentity, ha]
  · intro ha
    simp [toWebhookIdentity, ha]

/-- C8 witness: display-name and avatar rules at concrete identities. -/
theorem toWebhookIdentity_display_witness :
    (toWebhookIdentity { name := "Ember", emoji := some ("🔥") } none).username =
      some ("🔥" ++ " " ++ "Ember") ∧
    (toWebhookIdentity { name := "Solo" } none).username = some ("Solo") ∧
    (toWebhookIdentity { name := "A", avatar := some ("p.png") } (some ("o.png"))).avatarUrl =
      some ("o.png") ∧
    (toWebhookIdentity { name := "A", avatar := some ("p.png") } none).avatarUrl =
      some ("p.png") := by
  refine ⟨?_, ?_, ?_, ?_⟩
  · exact (toWebhookIdentity_display { name := "Ember", emoji := some ("🔥") } none).1
      ("🔥") rfl (by decide)
  · exact (toWebhookIdentity_display { name := "Solo" } none).2.1 (Or.inl rfl)
  · exact (toWebhookIdentity_display { name := "A", avatar := some ("p.png") }
      (some ("o.png"))).2.2.1 ("o.png") rfl
  · exact (toWebhookIdentity_display { name := "A", avatar := some ("p.png") } none).2.2.2.1 rfl

theorem sendDiscordWebhookText_okNet {α : Type} (chunker : Chunker)
    (f : Nat → WebhookSendResult) (text : String) (opts : WebhookSendOptions α)
    (h : ¬ jsTrim text = "") :
    sendDiscordWebhookText chunker (okNet f) text opts =
      (.ok (f ((effectiveChunks chunker text opts).length - 1)),
       chunkReqs opts (effectiveChunks chunker text opts) true) := by
  have htext : ¬ text = "" := fun hc => h (by rw [hc]; rfl)
  have hne := effectiveChunks_ne_nil chunker text opts htext
  simp only [sendDiscordWebhookText, if_neg h, sendChunks_okNet]
  rcases hcs : effectiveChunks chunker text opts with _ | ⟨c0, rest⟩
  · exact absurd hcs hne
  · simp [hcs]

theorem sendDiscordWebhookText_trace {α : Type} (chunker : Chunker) (net : Net)
    (text : String) (opts : WebhookSendOptions α) (h : ¬ jsTrim text = "") :
    (sendDiscordWebhookText chunker net text opts).2 =
      (sendChunks net opts (effectiveChunks chunker text opts) true none 0).2 := by
  simp only [sendDiscordWebhookText, if_neg h]
  split <;> rfl

theorem sendDiscordWebhookMedia_trace {α : Type} (chunker : Chunker) (net : Net)
    (text : String) (media : WebMedia) (opts : WebhookSendOptions α) :
    (sendDiscordWebhookMedia chunker net text media opts).2 =
      .file (buildFileBody ((mediaChunks chunker text opts).headD ("")) media opts) ::
        (match net 0 with
         | .error _ => []
         | .ok _ => (sendFollowUps net opts ((mediaChunks chunker text opts).drop 1) 1).2) := by
  unfold sendDiscordWebhookMedia
  rcases h0 : net 0 with e | r
  · simp [h0]
  · simp only [h0]
    split <;> rfl

/-- C4: for a text send that passes validation, the transport issues
exactly one network call per effective chunk, the i-th call carrying the
i-th chunk (so calls are in strictly increasing chunk order, each
completing before the next is issued in this sequential model), and the
result returned to the caller is the response to the last chunk's call,
never an earlier one. -/
theorem webhookText_chunk_order {α : Type} (chunker : Chunker)
    (f : Nat → WebhookSendResult) (text : String) (opts : WebhookSendOptions α)
    (h : ¬ jsTrim text = "") :
    (sendDiscordWebhookText chunker (okNet f) text opts).2.length =
      (effectiveChunks chunker text opts).length ∧
    (∀ (i : Nat) (c : String), (effectiveChunks chunker text opts)[i]? = some c →
      (sendDiscordWebhookText chunker (okNet f) text opts).2[i]? =
        some (Request.text (buildBody c
          { opts with embeds := if i = 0 then opts.embeds else none }))) ∧
    (sendDiscordWebhookText chunker (okNet f) text opts).1 =
      .ok (f ((effectiveChunks chunker text opts).length - 1)) := by
  have hrun := sendDiscordWebhookText_okNet chunker f text opts h
  refine ⟨?_, ?_, ?_⟩
  · rw [hrun]
    exact chunkReqs_length opts _ true
  · intro i c hc
    rw [hrun]
    simp only [chunkReqs_getElem opts _ true i, hc, true_and]
    rfl
  · rw [hrun]

/-- C4 witness: three chunks produce three ordered calls and the returned
result is the third call's response. -/
theorem webhookText_chunk_order_witness :
    (sendDiscordWebhookText chunkerABC (okNet fun n =>
        { messageId := String.mk [Char.ofNat (48 + n)], channelId := "c" }) ("abc")
      optsPlain).2.length = 3 ∧
    (sendDiscordWebhookText chunkerABC (okNet fun n =>
        { messageId := String.mk [Char.ofNat (48 + n)], channelId := "c" }) ("abc")
      optsPlain).1 = .ok { messageId := "2", channelId := "c" } := by
  constructor
  · exact (webhookText_chunk_order chunkerABC _ ("abc") optsPlain (by decide)).1
  · exact (webhookText_chunk_order chunkerABC _ ("abc") optsPlain (by decide)).2.2

/-- C1 counterexample: a media send whose caption splits into two chunks,
with one embed supplied, issues two requests and the second transmitted
unit (a follow-up chunk, not the first unit) still carries the embeds,
because the follow-up posts reuse the original options unchanged. -/
theorem embeds_attachment_cex :
    (sendDiscordWebhookMedia chunkerAB netOkMC ("ab") mediaBlob optsEmbeds7).2.length = 2 ∧
    ((sendDiscordWebhookMedia chunkerAB netOkMC ("ab") mediaBlob optsEmbeds7).2.map
      Request.embedsOf)[1]? = some (some [7]) := by
  decide

/-- C1 (amended): on a text send, supplied embeds attach to the first
transmitted chunk only, every later chunk's payload carrying none; on a
media send, the file-carrying message carries the embeds, but so does
every follow-up text chunk (the options are passed through unchanged). -/
theorem embeds_attachment {α : Type} (chunker : Chunker) (net : Net) (text : String)
    (media : WebMedia) (opts : WebhookSendOptions α) :
    (∀ (i : Nat) (req : Request α),
      (sendDiscordWebhookText chunker net text opts).2[i]? = some req →
      req.embedsOf = if i = 0 then nonemptyEmbeds opts.embeds else none) ∧
    (∀ (i : Nat) (req : Request α),
      (sendDiscordWebhookMedia chunker net text media opts).2[i]? = some req →
      req.embedsOf = nonemptyEmbeds opts.embeds) := by
  constructor
  · intro i req hreq
    by_cases ht : jsTrim text = ""
    · simp [sendDiscordWebhookText, ht] at hreq
    · rw [sendDiscordWebhookText_trace chunker net text opts ht] at hreq
      have := sendChunks_embedsOf net opts (effectiveChunks chunker text opts)
        true none 0 i req hreq
      simpa using this
  · intro i req hreq
    rw [sendDiscordWebhookMedia_trace chunker net text media opts] at hreq
    rcases i with _ | j
    · simp at hreq
      subst hreq
      rfl
    · simp at hreq
      rcases h0 : net 0 with e | r <;> rw [h0] at hreq
      · simp at hreq
      · simp at hreq
        rw [← List.drop_one] at hreq
        obtain ⟨c, rfl⟩ := sendFollowUps_reqShape net opts
          ((mediaChunks chunker text opts).drop 1) 1 j req hreq
        rfl

/-- C1 amended-claim witness: on concrete two-chunk sends, the text path's
second chunk carries no embeds while the media path's second unit carries
the supplied embed. -/
theorem embeds_attachment_witness :
    Request.embedsOf ((sendDiscordWebhookText chunkerAB netOkMC ("ab") optsEmbeds7).2.get
      ⟨1, by decide⟩) = none ∧
    Request.embedsOf ((sendDiscordWebhookMedia chunkerAB netOkMC ("ab") mediaBlob
      optsEmbeds7).2.get ⟨1, by decide⟩) = nonemptyEmbeds optsEmbeds7.embeds := by
  constructor
  · exact (embeds_attachment chunkerAB netOkMC ("ab") mediaBlob optsEmbeds7).1 1 _ (by decide)
  · exact (embeds_attachment chunkerAB netOkMC ("ab") mediaBlob optsEmbeds7).2 1 _ (by decide)

/-- C5: a transport failure on chunk k of a text send propagates that very
error and no later chunk is attempted (exactly k+1 calls leave); on a
media send whose file post succeeded, a failure on a follow-up call
propagates, aborts the remaining follow-ups, and the completed file post
remains the first transmitted request (it is not undone). -/
theorem webhook_failure_aborts {α : Type} :
    (∀ (chunker : Chunker) (net : Net) (text : String) (opts : WebhookSendOptions α)
      (k : Nat) (e : TransportErr),
      ¬ jsTrim text = "" →
      (∀ j, j < k → ∃ r, net j = .ok r) → net k = .error e →
      k < (effectiveChunks chunker text opts).length →
      (sendDiscordWebhookText chunker net text opts).1 = .error (.transport e) ∧
      (sendDiscordWebhookText chunker net text opts).2.length = k + 1) ∧
    (∀ (chunker : Chunker) (net : Net) (text : String) (media : WebMedia)
      (opts : WebhookSendOptions α) (k : Nat) (e : TransportErr) (r₀ : WebhookSendResult),
      net 0 = .ok r₀ →
      (∀ j, 1 ≤ j → j < k → ∃ r, net j = .ok r) → net k = .error e → 1 ≤ k →
      k ≤ nonBlankCount ((mediaChunks chunker text opts).drop 1) →
      (sendDiscordWebhookMedia chunker net text media opts).1 = .error (.transport e) ∧
      (sendDiscordWebhookMedia chunker net text media opts).2.length = k + 1 ∧
      (sendDiscordWebhookMedia chunker net text media opts).2[0]? =
        some (.file (buildFileBody ((mediaChunks chunker text opts).headD ("")) media opts))) := by
  constructor
  · intro chunker net text opts k e ht hok hfail hk
    have hfail0 : net (0 + k) = .error e := by simpa using hfail
    have hok0 : ∀ j, j < k → ∃ r, net (0 + j) = .ok r := by simpa using hok
    have hmain := sendChunks_fail net opts e (effectiveChunks chunker text opts)
      k 0 true none hok0 hfail0 hk
    constructor
    · simp only [sendDiscordWebhookText, if_neg ht]
      rcases hout : (sendChunks net opts (effectiveChunks chunker text opts) true none 0).1
        with e' | mr
      · have : e' = SendError.transport e := by
          have := hmain.1
          rw [hout] at this
          exact Except.error.inj this
        simp [hout, this]
      · rw [hout] at hmain
        exact absurd hmain.1 (by simp)
    · rw [sendDiscordWebhookText_trace chunker net text opts ht]
      exact hmain.2
  · intro chunker net text media opts k e r₀ h0 hok hfail hk1 hkcount
    have hok' : ∀ j, j < k - 1 → ∃ r, net (1 + j) = .ok r := by
      intro j hj
      exact hok (1 + j) (by omega) (by omega)
    have hfail' : net (1 + (k - 1)) = .error e := by
      have : 1 + (k - 1) = k := by omega
      rw [this]; exact hfail
    have hkc : k - 1 < nonBlankCount ((mediaChunks chunker text opts).drop 1) := by omega
    have hfu := sendFollowUps_fail net opts e ((mediaChunks chunker text opts).drop 1)
      (k - 1) 1 hok' hfail' hkc
    refine ⟨?_, ?_, ?_⟩
    · unfold sendDiscordWebhookMedia
      simp only [h0]
      rcases hfu1 : (sendFollowUps net opts ((mediaChunks chunker text opts).drop 1) 1).1
        with e' | u
      · have : e' = SendError.transport e := by
          have := hfu.1
          rw [hfu1] at this
          exact Except.error.inj this
        simp [hfu1, this]
      · rw [hfu1] at hfu
        exact absurd hfu.1 (by simp)
    · rw [sendDiscordWebhookMedia_trace chunker net text media opts]
      simp only [h0, List.length_cons]
      rw [hfu.2]
      omega
    · rw [sendDiscordWebhookMedia_trace chunker net text media opts]
      simp

/-- C5 witness: with three chunks and the second call failing, the text
send stops after two calls and returns the 500; the media send keeps its
successful file post first, stops after the failing first follow-up, and
returns the 500. -/
theorem webhook_failure_aborts_witness :
    ((sendDiscordWebhookText chunkerABC netFailAt1 ("abc") optsPlain).1 =
        .error (.transport { status := 500, body := "boom" }) ∧
      (sendDiscordWebhookText chunkerABC netFailAt1 ("abc") optsPlain).2.length = 2) ∧
    ((sendDiscordWebhookMedia chunkerABC netFailAt1 ("abc") mediaBlob optsPlain).1 =
        .error (.transport { status := 500, body := "boom" }) ∧
      (sendDiscordWebhookMedia chunkerABC netFailAt1 ("abc") mediaBlob optsPlain).2.length = 2 ∧
      (sendDiscordWebhookMedia chunkerABC netFailAt1 ("abc") mediaBlob optsPlain).2[0]? =
        some (.file (buildFileBody ("a") mediaBlob optsPlain))) := by
  constructor
  · exact (webhook_failure_aborts (α := Nat)).1 chunkerABC netFailAt1 ("abc") optsPlain 1
      { status := 500, body := "boom" } (by decide)
      (fun j hj => ⟨{ messageId := "m", channelId := "c" }, by
        obtain rfl : j = 0 := by omega
        rfl⟩)
      rfl (by decide)
  · exact (webhook_failure_aborts (α := Nat)).2 chunkerABC netFailAt1 ("abc") mediaBlob
      optsPlain 1 { status := 500, body := "boom" } { messageId := "m", channelId := "c" }
      rfl (fun j hj1 hj2 => absurd (lt_of_lt_of_le hj2 hj1) (lt_irrefl j))
      rfl (by decide) (by decide)

/-- C9: unlike the text path (which rejects empty text with a validation
error), a media send with an empty caption never raises a validation
error for any options: it issues exactly one call — the file post — whose
metadata omits the `content` field entirely, with no follow-up posts. -/
theorem media_empty_caption {α : Type} (chunker : Chunker) (net : Net) (media : WebMedia)
    (opts : WebhookSendOptions α) :
    (sendDiscordWebhookMedia chunker net ("") media opts).2 =
      [.file (buildFileBody ("") media opts)] ∧
    (buildFileBody ("") media opts : FileRequest α).content = none ∧
    (∀ (t : String) (m : String),
      ¬ (sendDiscordWebhookMedia chunker net t media opts).1 = .error (.validation m)) ∧
    sendDiscordWebhookText chunker net ("") opts =
      (.error (.validation validationMsg), ([] : List (Request α))) := by
  refine ⟨?_, rfl, ?_, rfl⟩
  · rw [sendDiscordWebhookMedia_trace chunker net ("") media opts]
    rcases h0 : net 0 with e | r
    · rfl
    · have : mediaChunks chunker ("") opts = [] := rfl
      simp [this, sendFollowUps]
  · intro t m
    unfold sendDiscordWebhookMedia
    rcases h0 : net 0 with e | r
    · simp [h0]
    · simp only [h0]
      rcases sendFollowUps_err_shape net opts ((mediaChunks chunker t opts).drop 1) 1
        with hok | ⟨e, he⟩
      · rw [List.drop_one] at hok
        simp [hok]
      · rw [List.drop_one] at he
        simp [he]

/-- C9 witness: the empty-caption media send at concrete inputs. -/
theorem media_empty_caption_witness :
    (sendDiscordWebhookMedia chunkerAB netOkMC ("") mediaBlob optsEmbeds7).2 =
      [.file (buildFileBody ("") mediaBlob optsEmbeds7)] ∧
    (buildFileBody ("") mediaBlob optsEmbeds7).content = none :=
  ⟨(media_empty_caption chunkerAB netOkMC mediaBlob optsEmbeds7).1,
   (media_empty_caption chunkerAB netOkMC mediaBlob optsEmbeds7).2.1⟩

/-- C3: the orchestrator takes the webhook branch only if the destination
resolves to a configured webhook endpoint, an acting-agent identifier is
present, and that identifier resolves to a non-null display identity
(plus, for media, a present media reference); when any of these fails the
outcome is exactly the bot-API fallback, which issues no webhook request
and records the bot-API call. -/
theorem webhook_gating {α : Type} (chunker : Chunker) (net : Net)
    (resolveIdentity : IdentityResolver) (botSend : BotSender)
    (loadMedia : String → WebMedia) (ctx : ChannelOutboundContext) :
    ((sendTextWithWebhookFallback (α := α) chunker net resolveIdentity botSend ctx).botCall =
        none →
      (orchWebhookUrl ctx.cfg ctx.«to»).isSome = true ∧
      ∃ aid, ctx.agentId = some aid ∧ (resolveIdentity aid).isSome = true) ∧
    (¬ ((orchWebhookUrl ctx.cfg ctx.«to»).isSome = true ∧
        ∃ aid, ctx.agentId = some aid ∧ (resolveIdentity aid).isSome = true) →
      sendTextWithWebhookFallback (α := α) chunker net resolveIdentity botSend ctx =
        botFallbackText botSend ctx) ∧
    ((sendMediaWithWebhookFallback (α := α) chunker net resolveIdentity botSend loadMedia
        ctx).botCall = none →
      (orchWebhookUrl ctx.cfg ctx.«to»).isSome = true ∧ ctx.mediaUrl.isSome = true ∧
      ∃ aid, ctx.agentId = some aid ∧ (resolveIdentity aid).isSome = true) ∧
    (¬ ((orchWebhookUrl ctx.cfg ctx.«to»).isSome = true ∧ ctx.mediaUrl.isSome = true ∧
        ∃ aid, ctx.agentId = some aid ∧ (resolveIdentity aid).isSome = true) →
      sendMediaWithWebhookFallback (α := α) chunker net resolveIdentity botSend loadMedia ctx =
        botFallbackMedia botSend ctx) ∧
    (botFallbackText (α := α) botSend ctx).webhookRequests = [] ∧
    (botFallbackText (α := α) botSend ctx).botCall =
      some { «to» := ctx.«to», text := ctx.text, mediaUrl := none,
             replyTo := ctx.replyToId, accountId := ctx.accountId } ∧
    (botFallbackMedia (α := α) botSend ctx).webhookRequests = [] ∧
    (botFallbackMedia (α := α) botSend ctx).botCall =
      some { «to» := ctx.«to», text := ctx.text, mediaUrl := ctx.mediaUrl,
             replyTo := ctx.replyToId, accountId := ctx.accountId } := by
  refine ⟨?_, ?_, ?_, ?_, rfl, rfl, rfl, rfl⟩
  · intro hbc
    unfold sendTextWithWebhookFallback at hbc
    rcases hwu : orchWebhookUrl ctx.cfg ctx.«to» with _ | wu <;>
      rcases hag : ctx.agentId with _ | aid <;>
        simp only [hwu, hag] at hbc <;>
          try simp [botFallbackText] at hbc
    by_cases haid : aid = ""
    · rw [if_neg (by simp [haid])] at hbc
      simp [botFallbackText] at hbc
    · have hwune := orchWebhookUrl_ne_empty ctx.cfg ctx.«to» wu hwu
      rw [if_pos ⟨hwune, haid⟩] at hbc
      rcases hres : resolveIdentity aid with _ | idn
      · simp only [hres] at hbc
        simp [botFallbackText] at hbc
      · exact ⟨rfl, aid, rfl, by rw [hres]; rfl⟩
  · intro hncond
    unfold sendTextWithWebhookFallback
    rcases hwu : orchWebhookUrl ctx.cfg ctx.«to» with _ | wu <;>
      rcases hag : ctx.agentId with _ | aid <;>
        simp only [hwu, hag]
    by_cases haid : aid = ""
    · rw [if_neg (by simp [haid])]
    · have hwune := orchWebhookUrl_ne_empty ctx.cfg ctx.«to» wu hwu
      rw [if_pos ⟨hwune, haid⟩]
      rcases hres : resolveIdentity aid with _ | idn
      · simp only [hres]
      · exact absurd ⟨by rw [hwu]; rfl, aid, hag, by rw [hres]; rfl⟩ hncond
  · intro hbc
    unfold sendMediaWithWebhookFallback at hbc
    rcases hwu : orchWebhookUrl ctx.cfg ctx.«to» with _ | wu <;>
      rcases hag : ctx.agentId with _ | aid <;>
        rcases hmu : ctx.mediaUrl with _ | mu <;>
          simp only [hwu, hag, hmu] at hbc <;>
            try simp [botFallbackMedia] at hbc
    by_cases haid : aid = ""
    · rw [if_neg (by simp [haid])] at hbc
      simp [botFallbackMedia] at hbc
    · by_cases hmue : mu = ""
      · rw [if_neg (by simp [hmue])] at hbc
        simp [botFallbackMedia] at hbc
      · have hwune := orchWebhookUrl_ne_empty ctx.cfg ctx.«to» wu hwu
        rw [if_pos ⟨hwune, haid, hmue⟩] at hbc
        rcases hres : resolveIdentity aid with _ | idn
        · simp only [hres] at hbc
          simp [botFallbackMedia] at hbc
        · exact ⟨rfl, rfl, aid, rfl, by rw [hres]; rfl⟩
  · intro hncond
    unfold sendMediaWithWebhookFallback
    rcases hwu : orchWebhookUrl ctx.cfg ctx.«to» with _ | wu <;>
      rcases hag : ctx.agentId with _ | aid <;>
        rcases hmu : ctx.mediaUrl with _ | mu <;>
          simp only [hwu, hag, hmu]
    by_cases haid : aid = ""
    · rw [if_neg (by simp [haid])]
    · by_cases hmue : mu = ""
      · rw [if_neg (by simp [hmue])]
      · have hwune := orchWebhookUrl_ne_empty ctx.cfg ctx.«to» wu hwu
        rw [if_pos ⟨hwune, haid, hmue⟩]
        rcases hres : resolveIdentity aid with _ | idn
        · simp only [hres]
        · exact absurd ⟨by rw [hwu]; rfl, by rw [hmu]; rfl, aid, hag,
            by rw [hres]; rfl⟩ hncond

/-- C3 witness: a context with a configured webhook but no agent id falls
back to the bot API, and the same context with an agent id and resolvable
identity shows the gating conditions at work. -/
theorem webhook_gating_witness :
    sendTextWithWebhookFallback (α := Nat) chunkerAB netOkMC resolverA botEcho
      { ctxHook with agentId := none } =
      botFallbackText botEcho { ctxHook with agentId := none } ∧
    (orchWebhookUrl ctxHook.cfg ctxHook.«to»).isSome = true ∧
    (sendMediaWithWebhookFallback (α := Nat) chunkerAB netOkMC resolverA botEcho
      (fun _ => mediaBlob) ctxHook) =
      botFallbackMedia botEcho ctxHook := by
  refine ⟨?_, ?_, ?_⟩
  · exact (webhook_gating chunkerAB netOkMC resolverA botEcho (fun _ => mediaBlob)
      { ctxHook with agentId := none }).2.1 (by decide)
  · have := (webhook_gating (α := Nat) chunkerAB netOkMC resolverA botEcho
      (fun _ => mediaBlob) { ctxHook with agentId := none }).2.1 (by decide)
    decide
  · exact (webhook_gating chunkerAB netOkMC resolverA botEcho (fun _ => mediaBlob)
      ctxHook).2.2.2.1 (by decide)

/-- C10: the reply-target never influences webhook delivery — the webhook
transport's outgoing requests and results are identical for options
differing only in `replyTo` (text and media), the orchestrator's outcome
on the webhook branch is identical for contexts differing only in the
reply-target, and the reply-target is forwarded exactly on the bot-API
fallback call. -/
theorem replyTo_no_influence {α : Type} :
    (∀ (chunker : Chunker) (net : Net) (text : String) (opts : WebhookSendOptions α)
      (r₁ r₂ : Option String),
      sendDiscordWebhookText chunker net text { opts with replyTo := r₁ } =
        sendDiscordWebhookText chunker net text { opts with replyTo := r₂ }) ∧
    (∀ (chunker : Chunker) (net : Net) (text : String) (media : WebMedia)
      (opts : WebhookSendOptions α) (r₁ r₂ : Option String),
      sendDiscordWebhookMedia chunker net text media { opts with replyTo := r₁ } =
        sendDiscordWebhookMedia chunker net text media { opts with replyTo := r₂ }) ∧
    (∀ (chunker : Chunker) (net : Net) (resolveIdentity : IdentityResolver)
      (botSend : BotSender) (ctx : ChannelOutboundContext) (r₁ r₂ : Option String),
      ((sendTextWithWebhookFallback (α := α) chunker net resolveIdentity botSend
          { ctx with replyToId := r₁ }).botCall = none ↔
        (sendTextWithWebhookFallback (α := α) chunker net resolveIdentity botSend
          { ctx with replyToId := r₂ }).botCall = none) ∧
      ((sendTextWithWebhookFallback (α := α) chunker net resolveIdentity botSend
          { ctx with replyToId := r₁ }).botCall = none →
        sendTextWithWebhookFallback (α := α) chunker net resolveIdentity botSend
          { ctx with replyToId := r₁ } =
        sendTextWithWebhookFallback (α := α) chunker net resolveIdentity botSend
          { ctx with replyToId := r₂ }) ∧
      (∀ bc, (sendTextWithWebhookFallback (α := α) chunker net resolveIdentity botSend
          { ctx with replyToId := r₁ }).botCall = some bc → bc.replyTo = r₁)) := by
  refine ⟨?_, ?_, ?_⟩
  · intro chunker net text opts r₁ r₂
    exact sendDiscordWebhookText_replyTo chunker net text opts.webhookUrl opts.identity
      r₁ r₂ opts.threadId opts.maxLinesPerMessage opts.chunkMode opts.embeds
  · intro chunker net text media opts r₁ r₂
    exact sendDiscordWebhookMedia_replyTo chunker net text media opts.webhookUrl
      opts.identity r₁ r₂ opts.threadId opts.maxLinesPerMessage opts.chunkMode opts.embeds
  · intro chunker net resolveIdentity botSend ctx r₁ r₂
    unfold sendTextWithWebhookFallback
    rcases hwu : orchWebhookUrl ctx.cfg ctx.«to» with _ | wu <;>
      rcases hag : ctx.agentId with _ | aid <;>
        simp only [hwu, hag]
    · simp [botFallbackText]
    · simp [botFallbackText]
    · simp [botFallbackText]
    · by_cases haid : aid = ""
      · rw [if_neg (by simp [haid]), if_neg (by simp [haid])]
        simp [botFallbackText]
      · have hwune : ¬ wu = "" := orchWebhookUrl_ne_empty ctx.cfg ctx.«to» wu hwu
        rw [if_pos ⟨hwune, haid⟩, if_pos ⟨hwune, haid⟩]
        rcases hres : resolveIdentity aid with _ | idn
        · simp only [hres]
          simp [botFallbackText]
        · simp [hres]

/-- C10 witness: concrete sends and a concrete webhook-branch context
where changing the reply-target changes nothing, plus a concrete fallback
call that forwards the reply-target. -/
theorem replyTo_no_influence_witness :
    sendDiscordWebhookText chunkerAB netOkMC ("ab") { optsPlain with replyTo := some ("r1") } =
      sendDiscordWebhookText chunkerAB netOkMC ("ab") { optsPlain with replyTo := some ("r2") } ∧
    sendDiscordWebhookMedia chunkerAB netOkMC ("ab") mediaBlob
        { optsPlain with replyTo := some ("r1") } =
      sendDiscordWebhookMedia chunkerAB netOkMC ("ab") mediaBlob
        { optsPlain with replyTo := some ("r2") } ∧
    sendTextWithWebhookFallback (α := Nat) chunkerAB netOkMC resolverA botEcho
        { ctxHook with replyToId := some ("x") } =
      sendTextWithWebhookFallback (α := Nat) chunkerAB netOkMC resolverA botEcho
        { ctxHook with replyToId := some ("y") } ∧
    ({ «to» := ctxHook.«to», text := ctxHook.text, mediaUrl := none,
       replyTo := some ("z"), accountId := none } : BotCall).replyTo = some ("z") := by
  refine ⟨?_, ?_, ?_, ?_⟩
  · exact (replyTo_no_influence (α := Nat)).1 chunkerAB netOkMC ("ab") optsPlain
      (some ("r1")) (some ("r2"))
  · exact (replyTo_no_influence (α := Nat)).2.1 chunkerAB netOkMC ("ab") mediaBlob optsPlain
      (some ("r1")) (some ("r2"))
  · exact ((replyTo_no_influence (α := Nat)).2.2 chunkerAB netOkMC resolverA botEcho ctxHook
      (some ("x")) (some ("y"))).2.1 (by decide)
  · exact ((replyTo_no_influence (α := Nat)).2.2 chunkerAB netOkMC resolverA botEcho
      { ctxHook with agentId := none } (some ("z")) (some ("w"))).2.2 _ (by decide)
